import Mathlib

/-!
Verification of the transit-ontology builder (`src/main.py`, `src/utils.py`).

The script declares an OWL schema (base classes, object/data properties with
functional/transitive/inverse markers), defines composite classes by
description-logic formulas, ingests tabular rows into individuals and edges,
and then delegates classification and relation closure to an external
reasoner call (`sync_reasoner()`).  The schema declarations, the composite
formulas and the ingestion loops are embedded here directly from the source;
the classification and closure semantics, which live behind the external
reasoner call and the ontology library rather than in the repository tree,
are modelled from the specification and are marked as such in their doc
comments.

Machine integers are modelled as `Int`/`Nat`; cell values of the input
tables are modelled as `Option String` (`none` stands for a missing / NaN
cell, `some s` for a cell rendered as the string `s`).
-/

namespace Transport

/-- Strip leading and trailing whitespace from a character list
(models Python `str.strip()` as used by `_safe_str`). -/
def stripChars (l : List Char) : List Char :=
  ((l.dropWhile Char.isWhitespace).reverse.dropWhile Char.isWhitespace).reverse

/-- `_safe_str` on an already-string cell: `pd.isna` maps a missing cell to
`""`, otherwise the string is stripped. -/
def pyStrip (s : String) : String :=
  String.mk (stripChars s.data)

/-- `_safe_str(row.get(col))`: a missing / NaN cell yields `""`, otherwise
the stripped string. -/
def strCell (c : Option String) : String :=
  match c with
  | none => ""
  | some s => pyStrip s

/-- `df[col].astype(str)` on one cell: pandas renders a NaN cell as the
string `"nan"` and leaves a string cell unchanged. -/
def rawCell (c : Option String) : String :=
  match c with
  | none => "nan"
  | some s => s

/-- Numeric value of a digit list, most significant first. -/
def digitsToNat (l : List Char) : Nat :=
  l.foldl (fun a c => 10 * a + (c.toNat - 48)) 0

/-- Python `int(x)` on a string: an optional sign followed by a nonempty
digit run (the fragment of the accepted grammar exercised by the data;
underscores and surrounding whitespace are not modelled). -/
def parseIntStr (s : String) : Option Int :=
  match s.data with
  | '-' :: rest =>
      if rest ≠ [] ∧ rest.all Char.isDigit then some (-(digitsToNat rest : Int)) else none
  | '+' :: rest =>
      if rest ≠ [] ∧ rest.all Char.isDigit then some (digitsToNat rest : Int) else none
  | l =>
      if l ≠ [] ∧ l.all Char.isDigit then some (digitsToNat l : Int) else none

/-- Value of an unsigned decimal literal `whole "." frac` as an exact
fraction, returned as a numerator / positive-denominator pair
`(whole.frac, 10 ^ |frac|)`. -/
def decimalVal (whole frac : List Char) : Int × Nat :=
  ((digitsToNat whole * 10 ^ frac.length + digitsToNat frac : Nat), 10 ^ frac.length)

/-- Python `float(x)` on a string, modelled over the decimal fragment
`[sign] digits ["." digits]` with at least one digit; the float value is
taken exactly, as the fraction numerator / denominator (the claims only
involve short decimals, where IEEE rounding cannot move the value across
an integer boundary). -/
def parseFloatStr (s : String) : Option (Int × Nat) :=
  let signed : List Char → Option (Int × Nat) := fun l =>
    match l.splitOn '.' with
    | [w] => if w ≠ [] ∧ w.all Char.isDigit then some ((digitsToNat w : Int), 1) else none
    | [w, f] =>
        if (w ++ f) ≠ [] ∧ (w ++ f).all Char.isDigit then some (decimalVal w f) else none
    | _ => none
  match s.data with
  | '-' :: rest => (signed rest).map (fun p => (-p.1, p.2))
  | '+' :: rest => signed rest
  | l => signed l

/-- Python `int` applied to the exact value `p.1 / p.2`: truncation toward
zero. -/
def truncTowardZero (p : Int × Nat) : Int :=
  p.1.sign * ((p.1.natAbs / p.2 : Nat) : Int)

/-- `_safe_int` (src/main.py lines 74-83 and src/utils.py lines 8-17) on a
string argument: the empty string yields the default, then `int(x)` is
tried, then `int(float(x))`, and on both failing the default is returned. -/
def pySafeInt (s : String) (d : Option Int) : Option Int :=
  if s = "" then d
  else
    match parseIntStr s with
    | some n => some n
    | none =>
        match parseFloatStr s with
        | some q => some (truncTowardZero q)
        | none => d

/-- `_safe_int(row.get(col))`: a missing / NaN cell yields the default. -/
def safeIntCell (c : Option String) (d : Option Int) : Option Int :=
  match c with
  | none => d
  | some s => pySafeInt s d

/-! ## Schema (src/main.py lines 111-326) -/

/-- The subclass arrows declared in the `with onto:` block
(src/main.py lines 111-195): each subclass names its declared parent. -/
def parentClass : String → Option String
  | "MetroStop" => some "Stop"
  | "TramStop" => some "Stop"
  | "BusStop" => some "Stop"
  | "BusRoute" => some "Route"
  | "TramRoute" => some "Route"
  | "MetroRoute" => some "Route"
  | "LongTrip" => some "Trip"
  | "ShortTrip" => some "Trip"
  | "WheelchairFriendlyTrip" => some "Trip"
  | "FastTransfer" => some "Transfer"
  | "SlowTransfer" => some "Transfer"
  | "ElevatorPathway" => some "Pathway"
  | "StairsPathway" => some "Pathway"
  | "EscalatorPathway" => some "Pathway"
  | "Walkway" => some "Pathway"
  | "ServedStop" => some "Stop"
  | "MetroOnlyStop" => some "Stop"
  | "AccessibleStop" => some "Stop"
  | "SurfaceStop" => some "Stop"
  | "MetroLine" => some "Route"
  | _ => none

/-- Reflexive-transitive reachability along `parentClass`, with fuel
(the declared hierarchy has depth one, so fuel 4 is ample). -/
def subClassFuel : Nat → String → String → Bool
  | 0, _, _ => false
  | n + 1, c, d =>
      decide (c = d) ||
        match parentClass c with
        | some p => subClassFuel n p d
        | none => false

/-- `c` is `d` or a declared descendant of `d`. -/
def isSubClassOf (c d : String) : Bool :=
  subClassFuel 4 c d

/-- One object-property declaration: name, declared domain and range class
lists, declared `inverse_property`, and the functional / transitive
markers.  An empty list stands for an omitted `domain = ...` /
`range = ...` line. -/
structure RelDecl where
  name : String
  dom : List String
  rng : List String
  inv : Option String
  functional : Bool
  transitive : Bool
deriving Repr, DecidableEq

/-- The object-property declarations, verbatim from src/main.py
lines 198-269.  Note `servesStop` declares a range but no domain. -/
def schemaRels : List RelDecl :=
  [ ⟨"servesStop", [], ["Stop"], none, false, false⟩,
    ⟨"isServedBy", ["Stop"], ["Route"], some "servesStop", false, false⟩,
    ⟨"hasTrip", ["Route"], ["Trip"], none, false, false⟩,
    ⟨"belongsToRoute", ["Trip"], ["Route"], some "hasTrip", false, false⟩,
    ⟨"fromStop", ["Transfer"], ["Stop"], none, false, false⟩,
    ⟨"toStop", ["Transfer"], ["Stop"], none, false, false⟩,
    ⟨"fromRoute", ["Transfer"], ["Route"], none, false, false⟩,
    ⟨"toRoute", ["Transfer"], ["Route"], none, false, false⟩,
    ⟨"fromTrip", ["Transfer"], ["Trip"], none, false, false⟩,
    ⟨"toTrip", ["Transfer"], ["Trip"], none, false, false⟩,
    ⟨"hasLevel", ["Stop"], ["Level"], none, false, false⟩,
    ⟨"parentStation", ["Stop"], ["Stop"], none, true, false⟩,
    ⟨"providesFare", ["Agency"], ["Fare"], none, false, false⟩,
    ⟨"providedByAgency", ["Fare"], ["Agency"], some "providesFare", false, false⟩,
    ⟨"connectsTransportElement", [], [], none, false, false⟩,
    ⟨"connectsStop", ["Pathway"], ["Stop"], none, false, false⟩,
    ⟨"connectedTo", ["Stop"], ["Stop"], none, false, true⟩ ]

/-- The inverse pairing induced by the three `inverse_property`
declarations; the ontology library registers each pairing symmetrically
on both properties. -/
def invOf : String → Option String
  | "isServedBy" => some "servesStop"
  | "servesStop" => some "isServedBy"
  | "belongsToRoute" => some "hasTrip"
  | "hasTrip" => some "belongsToRoute"
  | "providedByAgency" => some "providesFare"
  | "providesFare" => some "providedByAgency"
  | _ => none

/-- The functional object properties of the schema
(`parentStation`, src/main.py line 243). -/
def functionalObjProps : List String := ["parentStation"]

/-! ## Knowledge-base state -/

/-- The in-memory knowledge base: instantiation facts
`(declared class, individual)`, object edges `(property, source, target)`,
and data-property values.  All data properties of the schema are declared
`FunctionalProperty`, so the attribute stores hold at most one value per
(attribute, individual) pair by construction of their update operation. -/
structure KB where
  insts : List (String × String)
  objE : List (String × String × String)
  intA : List (String × String × Int)
  strA : List (String × String × String)
deriving Repr, DecidableEq

def emptyKB : KB := ⟨[], [], [], []⟩

/-- `onto.C(name)`: record that `i` was instantiated with declared class
`c` (re-instantiating an existing name returns the same individual, which
the membership reading below reflects). -/
def KB.newInd (kb : KB) (c i : String) : KB :=
  { kb with insts := (c, i) :: kb.insts }

/-- Modelled from the spec: inverse completion (§4.3) — the ontology
library mirrors every asserted edge of a property that has a declared
inverse, and stores a functional object property as a single replaced
value; both behaviours live in the external library, not under `src/`.
Appending an edge of a property with declared inverse adds the mirrored
edge atomically; assigning a functional object property replaces any
prior value for that source. -/
def KB.addObj (kb : KB) (r s t : String) : KB :=
  if functionalObjProps.contains r then
    { kb with
      objE := (r, s, t) ::
        kb.objE.filter (fun e => !(decide (e.1 = r) && decide (e.2.1 = s))) }
  else
    match invOf r with
    | some r2 => { kb with objE := (r2, t, s) :: (r, s, t) :: kb.objE }
    | none => { kb with objE := (r, s, t) :: kb.objE }

/-- Modelled from the spec: functional enforcement (§4.3) — a second
assignment of a functional data property replaces the prior value
(last-write-wins), as the ontology library does for `FunctionalProperty`
assignment. -/
def KB.setIntAttr (kb : KB) (a i : String) (v : Int) : KB :=
  { kb with
    intA := (a, i, v) ::
      kb.intA.filter (fun e => !(decide (e.1 = a) && decide (e.2.1 = i))) }

/-- Same replacement policy for string-valued functional data
properties. -/
def KB.setStrAttr (kb : KB) (a i : String) (v : String) : KB :=
  { kb with
    strA := (a, i, v) ::
      kb.strA.filter (fun e => !(decide (e.1 = a) && decide (e.2.1 = i))) }

/-- The edge `(r, s, t)` is present. -/
def KB.hasEdge (kb : KB) (r s t : String) : Bool :=
  kb.objE.any (fun e => decide (e = (r, s, t)))

/-- Recorded value of an integer data property. -/
def KB.getIntAttr (kb : KB) (a i : String) : Option Int :=
  (kb.intA.find? (fun e => decide (e.1 = a) && decide (e.2.1 = i))).map (fun e => e.2.2)

/-- Recorded value of a string data property. -/
def KB.getStrAttr (kb : KB) (a i : String) : Option String :=
  (kb.strA.find? (fun e => decide (e.1 = a) && decide (e.2.1 = i))).map (fun e => e.2.2)

/-- All recorded values of an integer data property for one individual. -/
def KB.intVals (kb : KB) (a i : String) : List Int :=
  (kb.intA.filter (fun e => decide (e.1 = a) && decide (e.2.1 = i))).map (fun e => e.2.2)

/-- All recorded values of a string data property for one individual. -/
def KB.strVals (kb : KB) (a i : String) : List String :=
  (kb.strA.filter (fun e => decide (e.1 = a) && decide (e.2.1 = i))).map (fun e => e.2.2)

/-- All recorded targets of an object property for one source. -/
def KB.objTargets (kb : KB) (r s : String) : List String :=
  (kb.objE.filter (fun e => decide (e.1 = r) && decide (e.2.1 = s))).map (fun e => e.2.2)

/-- `i` belongs to the base class `c`: it was instantiated with `c` or a
declared subclass of `c`. -/
def KB.memBase (kb : KB) (c i : String) : Bool :=
  kb.insts.any (fun p => decide (p.2 = i) && isSubClassOf p.1 c)

/-! ## Composite classes (src/main.py lines 328-345) -/

/-- A role occurring in a composite formula: a property used directly or
through `.inverse`. -/
inductive Role where
  | direct (r : String)
  | inv (r : String)
deriving Repr, DecidableEq

/-- Successors of `i` along a role, read off the stored edge set. -/
def roleTargets (kb : KB) (ro : Role) (i : String) : List String :=
  match ro with
  | .direct r =>
      (kb.objE.filter (fun e => decide (e.1 = r) && decide (e.2.1 = i))).map (fun e => e.2.2)
  | .inv r =>
      (kb.objE.filter (fun e => decide (e.1 = r) && decide (e.2.2 = i))).map (fun e => e.2.1)

/-- The composite-class operator forms used by the script: union of two
named classes, value restriction on an integer attribute, existential
restriction and universal restriction (each conjoined with a named
class). -/
inductive CForm where
  | union (a b : String)
  | valueEq (c attr : String) (v : Int)
  | exist (c : String) (ro : Role) (d : String)
  | allR (c : String) (ro : Role) (d : String)
deriving Repr, DecidableEq

/-- Modelled from the spec: the composite-class evaluator (§4.2) — the
deduction step itself is performed by the external `sync_reasoner()` call
(src/main.py line 551), not by code under `src/`; per the spec, membership
of a composite equals satisfaction of its formula against the current
store, with the universal restriction vacuously true for an individual
with zero edges of the quantified role. -/
def evalForm (kb : KB) (f : CForm) (i : String) : Bool :=
  match f with
  | .union a b => kb.memBase a i || kb.memBase b i
  | .valueEq c attr v => kb.memBase c i && decide (kb.getIntAttr attr i = some v)
  | .exist c ro d => kb.memBase c i && (roleTargets kb ro i).any (fun t => kb.memBase d t)
  | .allR c ro d => kb.memBase c i && (roleTargets kb ro i).all (fun t => kb.memBase d t)

/-- The `equivalent_to` formulas, verbatim from src/main.py lines 328-345.
Every class operand of every formula is a base class, so one evaluation
pass is already the fixed point of the spec's §4.2 iteration. -/
def composites : List (String × CForm) :=
  [ ("SurfaceStop", .union "BusStop" "TramStop"),
    ("MetroLine", .valueEq "Route" "routeType" 1),
    ("ServedStop", .exist "Stop" (.inv "servesStop") "Route"),
    ("MetroOnlyStop", .allR "Stop" (.inv "servesStop") "MetroRoute"),
    ("AccessibleStop", .exist "Stop" (.direct "connectsStop") "ElevatorPathway"),
    ("WheelchairFriendlyTrip", .valueEq "Trip" "wheelchairAccessible" 1) ]

/-- Modelled from the spec: classified membership after the reasoner run —
for a composite class the formula decides membership (if and only if); for
any other class, membership is the declared instantiation closed under the
subclass hierarchy. -/
def KB.member (kb : KB) (c i : String) : Bool :=
  match composites.find? (fun p => decide (p.1 = c)) with
  | some p => evalForm kb p.2 i
  | none => kb.memBase c i

/-! ## Ingestion (src/main.py lines 347-549)

Each row structure lists the columns the corresponding loop reads; a field
is `none` for a missing / NaN cell.  The float-valued columns `stop_lat`,
`stop_lon` and `price` are outside every claim and are omitted from the
row models; every other read column is embedded.  The `_limit` row caps
are a pre-filter applied before ingestion and are not modelled. -/

structure LevelRow where
  level_id : Option String
deriving Repr, DecidableEq

structure StopRow where
  stop_id : Option String
  stop_name : Option String
  location_type : Option String
  level_id : Option String
  parent_station : Option String
deriving Repr, DecidableEq

structure RouteRow where
  route_id : Option String
  route_short_name : Option String
  route_type : Option String
  agency_id : Option String
deriving Repr, DecidableEq

structure TripRow where
  trip_id : Option String
  route_id : Option String
  trip_headsign : Option String
  wheelchair_accessible : Option String
deriving Repr, DecidableEq

structure TransferRow where
  from_stop_id : Option String
  to_stop_id : Option String
  min_transfer_time : Option String
  from_route_id : Option String
  to_route_id : Option String
  from_trip_id : Option String
  to_trip_id : Option String
deriving Repr, DecidableEq

structure PathwayRow where
  pathway_id : Option String
  from_stop_id : Option String
  to_stop_id : Option String
  pathway_mode : Option String
  is_bidirectional : Option String
deriving Repr, DecidableEq

structure FareRow where
  fare_id : Option String
  payment_method : Option String
  transfer_duration : Option String
  agency_id : Option String
deriving Repr, DecidableEq

/-- The source's `if cond: <kb-mutating statement>` pattern: apply the
mutation exactly when the condition holds. -/
def applyIf (b : Bool) (f : KB → KB) (kb : KB) : KB :=
  if b then f kb else kb

/-- The source's `v = _safe_int(...); if v is not None: ind.attr = v`
pattern for a functional integer attribute. -/
def setIntOpt (a i : String) (o : Option Int) (kb : KB) : KB :=
  match o with
  | some v => kb.setIntAttr a i v
  | none => kb

/-- The ingestion state: the knowledge base plus the id-lookup
dictionaries (`level_by_id`, `stop_by_id`, `route_by_id`, `agency_by_id`,
`trip_by_id`); each dictionary value is its key with a fixed prefix, so
only the key sets are carried. -/
structure IngestSt where
  kb : KB
  levelIds : List String
  stopIds : List String
  routeIds : List String
  agencyIds : List String
  tripIds : List String
deriving Repr, DecidableEq

def emptySt : IngestSt := ⟨emptyKB, [], [], [], [], []⟩

/-- Levels loop (src/main.py lines 352-358). -/
def ingestLevelRow (st : IngestSt) (row : LevelRow) : IngestSt :=
  let lid := strCell row.level_id
  if lid == "" then st
  else
    { st with
      kb := st.kb.newInd "Level" ("level_" ++ lid),
      levelIds := lid :: st.levelIds }

/-- Stops loop (src/main.py lines 361-393); `stop_by_id` receives the new
stop before the parent-station lookup, exactly as in the source. -/
def ingestStopRow (st : IngestSt) (row : StopRow) : IngestSt :=
  let sid := strCell row.stop_id
  if sid == "" then st
  else
    let i := "stop_" ++ sid
    let ids := sid :: st.stopIds
    let nm := strCell row.stop_name
    let lid := strCell row.level_id
    let parent := strCell row.parent_station
    let kb := st.kb.newInd "Stop" i
    let kb := applyIf (nm != "") (fun k => k.setStrAttr "stopName" i nm) kb
    let kb := setIntOpt "locationType" i (safeIntCell row.location_type none) kb
    let kb :=
      applyIf (lid != "" && st.levelIds.contains lid)
        (fun k => k.addObj "hasLevel" i ("level_" ++ lid)) kb
    let kb :=
      applyIf (parent != "" && ids.contains parent)
        (fun k => k.addObj "parentStation" i ("stop_" ++ parent)) kb
    { st with kb := kb, stopIds := ids }

/-- Routes-and-agencies loop (src/main.py lines 396-420). -/
def ingestRouteRow (st : IngestSt) (row : RouteRow) : IngestSt :=
  let rid := strCell row.route_id
  if rid == "" then st
  else
    let i := "route_" ++ rid
    let rsn := strCell row.route_short_name
    let kb := st.kb.newInd "Route" i
    let kb := applyIf (rsn != "") (fun k => k.setStrAttr "routeShortName" i rsn) kb
    let kb := setIntOpt "routeType" i (safeIntCell row.route_type none) kb
    let aid := strCell row.agency_id
    if aid != "" && !(st.agencyIds.contains aid) then
      { st with
        kb := kb.newInd "Agency" ("agency_" ++ aid),
        routeIds := rid :: st.routeIds,
        agencyIds := aid :: st.agencyIds }
    else
      { st with kb := kb, routeIds := rid :: st.routeIds }

/-- The `trips_df2` pre-filter (src/main.py line 425): keep the rows whose
raw `route_id`, rendered by `astype(str)`, is a loaded route key. -/
def tripsFilter (routeIds : List String) (rows : List TripRow) : List TripRow :=
  rows.filter (fun r => routeIds.contains (rawCell r.route_id))

/-- Trips loop (src/main.py lines 426-444); `belongsToRoute` is appended,
and its declared inverse `hasTrip` is mirrored by the store. -/
def ingestTripRow (st : IngestSt) (row : TripRow) : IngestSt :=
  let tid := strCell row.trip_id
  let rid := strCell row.route_id
  if tid == "" || !(st.routeIds.contains rid) then st
  else
    let i := "trip_" ++ tid
    let hs := strCell row.trip_headsign
    let kb := st.kb.newInd "Trip" i
    let kb := kb.addObj "belongsToRoute" i ("route_" ++ rid)
    let kb := applyIf (hs != "") (fun k => k.setStrAttr "tripHeadsign" i hs) kb
    let kb := setIntOpt "wheelchairAccessible" i (safeIntCell row.wheelchair_accessible none) kb
    { st with kb := kb, tripIds := tid :: st.tripIds }

/-- The `transfers_df2` pre-filter (src/main.py lines 448-451): keep the
rows whose raw `from_stop_id` and `to_stop_id`, rendered by
`astype(str)`, are both loaded stop keys.  The pandas index of each row
is preserved through the filter. -/
def transfersFilter (stopIds : List String) (rows : List (Nat × TransferRow)) :
    List (Nat × TransferRow) :=
  rows.filter (fun p =>
    stopIds.contains (rawCell p.2.from_stop_id) && stopIds.contains (rawCell p.2.to_stop_id))

/-- Transfers loop (src/main.py lines 453-489): the transfer individual,
its stop / route / trip edges, the weak `servesStop` inference and the
`connectedTo` reachability edge. -/
def ingestTransferRow (st : IngestSt) (idx : Nat) (row : TransferRow) : IngestSt :=
  let fs := strCell row.from_stop_id
  let ts := strCell row.to_stop_id
  if fs == "" || ts == "" then st
  else
    let i := "transfer_" ++ fs ++ "_" ++ ts ++ "_" ++ toString idx
    let fr := strCell row.from_route_id
    let trr := strCell row.to_route_id
    let ft := strCell row.from_trip_id
    let tt := strCell row.to_trip_id
    let kb := st.kb.newInd "Transfer" i
    let kb := kb.addObj "fromStop" i ("stop_" ++ fs)
    let kb := kb.addObj "toStop" i ("stop_" ++ ts)
    let kb := setIntOpt "minTransferTime" i (safeIntCell row.min_transfer_time none) kb
    let kb :=
      applyIf (fr != "" && st.routeIds.contains fr)
        (fun k => k.addObj "fromRoute" i ("route_" ++ fr)) kb
    let kb :=
      applyIf (trr != "" && st.routeIds.contains trr)
        (fun k => k.addObj "toRoute" i ("route_" ++ trr)) kb
    let kb :=
      applyIf (ft != "" && st.tripIds.contains ft)
        (fun k => k.addObj "fromTrip" i ("trip_" ++ ft)) kb
    let kb :=
      applyIf (tt != "" && st.tripIds.contains tt)
        (fun k => k.addObj "toTrip" i ("trip_" ++ tt)) kb
    let kb :=
      applyIf (fr != "" && st.routeIds.contains fr)
        (fun k => k.addObj "servesStop" ("route_" ++ fr) ("stop_" ++ fs)) kb
    let kb :=
      applyIf (trr != "" && st.routeIds.contains trr)
        (fun k => k.addObj "servesStop" ("route_" ++ trr) ("stop_" ++ ts)) kb
    let kb := kb.addObj "connectedTo" ("stop_" ++ fs) ("stop_" ++ ts)
    { st with kb := kb }

/-- Ingest the transfers table: pre-filter, then the row loop. -/
def ingestTransfers (st : IngestSt) (rows : List (Nat × TransferRow)) : IngestSt :=
  (transfersFilter st.stopIds rows).foldl (fun s p => ingestTransferRow s p.1 p.2) st

/-- The `pathways_df2` pre-filter (src/main.py lines 493-496). -/
def pathwaysFilter (stopIds : List String) (rows : List PathwayRow) : List PathwayRow :=
  rows.filter (fun r =>
    stopIds.contains (rawCell r.from_stop_id) && stopIds.contains (rawCell r.to_stop_id))

/-- Pathways loop (src/main.py lines 498-522): a plain `Pathway`
individual, its two `connectsStop` edges to the linked stops, the
`pathwayMode` / `isBidirectional` attributes and the `connectedTo`
reachability edges. -/
def ingestPathwayRow (st : IngestSt) (row : PathwayRow) : IngestSt :=
  let pid := strCell row.pathway_id
  let fs := strCell row.from_stop_id
  let ts := strCell row.to_stop_id
  if pid == "" || fs == "" || ts == "" then st
  else
    let i := "pathway_" ++ pid
    let bi := safeIntCell row.is_bidirectional none
    let kb := st.kb.newInd "Pathway" i
    let kb := kb.addObj "connectsStop" i ("stop_" ++ fs)
    let kb := kb.addObj "connectsStop" i ("stop_" ++ ts)
    let kb := setIntOpt "pathwayMode" i (safeIntCell row.pathway_mode none) kb
    let kb := setIntOpt "isBidirectional" i bi kb
    let kb := kb.addObj "connectedTo" ("stop_" ++ fs) ("stop_" ++ ts)
    let kb :=
      applyIf (bi == some 1)
        (fun k => k.addObj "connectedTo" ("stop_" ++ ts) ("stop_" ++ fs)) kb
    { st with kb := kb }

/-- Fares loop (src/main.py lines 525-549); `providesFare` is appended on
the agency and its declared inverse `providedByAgency` is mirrored. -/
def ingestFareRow (st : IngestSt) (row : FareRow) : IngestSt :=
  let fid := strCell row.fare_id
  if fid == "" then st
  else
    let i := "fare_" ++ fid
    let aid := strCell row.agency_id
    let kb := st.kb.newInd "Fare" i
    let kb := setIntOpt "paymentMethod" i (safeIntCell row.payment_method none) kb
    let kb := setIntOpt "transferDuration" i (safeIntCell row.transfer_duration none) kb
    if aid != "" then
      let kb := applyIf (!(st.agencyIds.contains aid)) (fun k => k.newInd "Agency" ("agency_" ++ aid)) kb
      let kb := kb.addObj "providesFare" ("agency_" ++ aid) i
      let newIds := if st.agencyIds.contains aid then st.agencyIds else aid :: st.agencyIds
      { st with kb := kb, agencyIds := newIds }
    else
      { st with kb := kb }

def ingestLevels (st : IngestSt) (rows : List LevelRow) : IngestSt :=
  rows.foldl ingestLevelRow st

def ingestStops (st : IngestSt) (rows : List StopRow) : IngestSt :=
  rows.foldl ingestStopRow st

def ingestRoutes (st : IngestSt) (rows : List RouteRow) : IngestSt :=
  rows.foldl ingestRouteRow st

def ingestTrips (st : IngestSt) (rows : List TripRow) : IngestSt :=
  (tripsFilter st.routeIds rows).foldl ingestTripRow st

def ingestPathways (st : IngestSt) (rows : List PathwayRow) : IngestSt :=
  (pathwaysFilter st.stopIds rows).foldl ingestPathwayRow st

def ingestFares (st : IngestSt) (rows : List FareRow) : IngestSt :=
  rows.foldl ingestFareRow st

/-- The whole ingestion pipeline in source order (levels, stops, routes,
trips, transfers, pathways, fares). -/
def ingestAll (levels : List LevelRow) (stops : List StopRow) (routes : List RouteRow)
    (trips : List TripRow) (transfers : List (Nat × TransferRow))
    (pathways : List PathwayRow) (fares : List FareRow) : IngestSt :=
  let st := ingestLevels emptySt levels
  let st := ingestStops st stops
  let st := ingestRoutes st routes
  let st := ingestTrips st trips
  let st := ingestTransfers st transfers
  let st := ingestPathways st pathways
  ingestFares st fares

/-! ## Transitive-relation closure

`connectedTo` is declared a `TransitiveProperty` (src/main.py lines
267-269); its closure is computed by the external reasoner run
(src/main.py line 551).  Modelled from the spec (§4.3): repeatedly add the
edge `(a, c)` whenever `(a, b)` and `(b, c)` are present and `(a, c)` is
not, until no further edge can be added; the pass count is bounded by the
square of the vertex count, which the lemmas below show is always enough
fuel. -/

/-- One-step compositions of an edge list. -/
def comp2 (es : List (String × String)) : List (String × String) :=
  es.flatMap (fun e => es.filterMap (fun f => if f.1 = e.2 then some (e.1, f.2) else none))

/-- The compositions not yet present, without duplicates. -/
def newEdges (es : List (String × String)) : List (String × String) :=
  ((comp2 es).filter (fun e => decide (e ∉ es))).dedup

/-- Add one round of missing compositions. -/
def closeStep (es : List (String × String)) : List (String × String) :=
  es ++ newEdges es

/-- Iterate `closeStep` until no new edge appears or the fuel runs out. -/
def closeIter : Nat → List (String × String) → List (String × String)
  | 0, es => es
  | n + 1, es => if newEdges es = [] then es else closeIter n (closeStep es)

/-- The vertices touched by an edge list. -/
def edgeVerts (es : List (String × String)) : List String :=
  (es.map Prod.fst ++ es.map Prod.snd).dedup

/-- A closure run over an edge list. -/
def closureRun (es : List (String × String)) : List (String × String) :=
  closeIter ((edgeVerts es).length * (edgeVerts es).length + 1) es.dedup

/-- The stored `connectedTo` edge set of a knowledge base. -/
def connectedToEdges (kb : KB) : List (String × String) :=
  kb.objE.filterMap (fun e => if e.1 = "connectedTo" then some (e.2.1, e.2.2) else none)

lemma mem_comp2 {es : List (String × String)} {a c : String} :
    (a, c) ∈ comp2 es ↔ ∃ b, (a, b) ∈ es ∧ (b, c) ∈ es := by
  unfold comp2
  simp only [List.mem_flatMap, List.mem_filterMap]
  constructor
  · rintro ⟨e, he, f, hf, hif⟩
    by_cases h : f.1 = e.2
    · simp only [if_pos h, Option.some.injEq, Prod.mk.injEq] at hif
      refine ⟨e.2, ?_, ?_⟩
      · simpa [← hif.1] using he
      · have : f = (e.2, c) := by
          cases f; cases e
          simp_all
        simpa [← this] using hf
    · simp [if_neg h] at hif
  · rintro ⟨b, h1, h2⟩
    exact ⟨(a, b), h1, (b, c), h2, by simp⟩

lemma newEdges_nil_iff {es : List (String × String)} :
    newEdges es = [] ↔ ∀ e ∈ comp2 es, e ∈ es := by
  unfold newEdges
  rw [List.dedup_eq_nil, List.filter_eq_nil_iff]
  simp

lemma trans_of_newEdges_nil {es : List (String × String)} (h : newEdges es = [])
    {a b c : String} (h1 : (a, b) ∈ es) (h2 : (b, c) ∈ es) : (a, c) ∈ es :=
  (newEdges_nil_iff.mp h) (a, c) (mem_comp2.mpr ⟨b, h1, h2⟩)

lemma mem_newEdges {es : List (String × String)} {e : String × String}
    (h : e ∈ newEdges es) : e ∈ comp2 es ∧ e ∉ es := by
  unfold newEdges at h
  rw [List.mem_dedup, List.mem_filter] at h
  simpa using h

lemma subset_closeStep {es : List (String × String)} : es ⊆ closeStep es := by
  intro e he
  exact List.mem_append.mpr (Or.inl he)

lemma subset_closeIter {n : Nat} {es : List (String × String)} : es ⊆ closeIter n es := by
  induction n generalizing es with
  | zero => intro e he; exact he
  | succ n ih =>
      intro e he
      unfold closeIter
      by_cases h : newEdges es = []
      · simpa [h] using he
      · simpa [h] using ih (subset_closeStep he)

lemma nodup_closeStep {es : List (String × String)} (h : es.Nodup) : (closeStep es).Nodup := by
  refine List.Nodup.append h (List.nodup_dedup _) ?_
  intro e he hne
  exact (mem_newEdges hne).2 he

lemma nodup_closeIter {n : Nat} {es : List (String × String)} (h : es.Nodup) :
    (closeIter n es).Nodup := by
  induction n generalizing es with
  | zero => exact h
  | succ n ih =>
      unfold closeIter
      by_cases hn : newEdges es = []
      · simpa [hn] using h
      · simpa [hn] using ih (nodup_closeStep h)

/-- All edges lie over the vertex list `V`. -/
def edgesOver (V : List String) (es : List (String × String)) : Prop :=
  ∀ e ∈ es, e.1 ∈ V ∧ e.2 ∈ V

lemma edgesOver_comp2 {V : List String} {es : List (String × String)}
    (h : edgesOver V es) : edgesOver V (comp2 es) := by
  rintro ⟨a, c⟩ hm
  obtain ⟨b, h1, h2⟩ := mem_comp2.mp hm
  exact ⟨(h _ h1).1, (h _ h2).2⟩

lemma edgesOver_closeStep {V : List String} {es : List (String × String)}
    (h : edgesOver V es) : edgesOver V (closeStep es) := by
  intro e he
  rcases List.mem_append.mp he with he | he
  · exact h e he
  · exact edgesOver_comp2 h e (mem_newEdges he).1

lemma length_le_of_edgesOver {V : List String} {es : List (String × String)}
    (hnd : es.Nodup) (hov : edgesOver V es) : es.length ≤ V.length * V.length := by
  have hcard : es.toFinset.card = es.length := List.toFinset_card_of_nodup hnd
  have hsub : es.toFinset ⊆ V.toFinset ×ˢ V.toFinset := by
    intro x hx
    rw [List.mem_toFinset] at hx
    rw [Finset.mem_product, List.mem_toFinset, List.mem_toFinset]
    exact hov x hx
  have := Finset.card_le_card hsub
  rw [hcard, Finset.card_product] at this
  calc es.length ≤ V.toFinset.card * V.toFinset.card := this
    _ ≤ V.length * V.length :=
        Nat.mul_le_mul (List.toFinset_card_le V) (List.toFinset_card_le V)

lemma length_closeStep_lt {es : List (String × String)} (h : newEdges es ≠ []) :
    es.length + 1 ≤ (closeStep es).length := by
  unfold closeStep
  rw [List.length_append]
  have : 0 < (newEdges es).length := List.length_pos.mpr h
  omega

/-- With fuel past the vertex-square bound, iteration reaches a state with
no missing composition. -/
lemma closeIter_converged {V : List String} :
    ∀ (n : Nat) (es : List (String × String)), es.Nodup → edgesOver V es →
      V.length * V.length + 1 ≤ n + es.length → newEdges (closeIter n es) = [] := by
  intro n
  induction n with
  | zero =>
      intro es hnd hov hfuel
      have := length_le_of_edgesOver hnd hov
      omega
  | succ n ih =>
      intro es hnd hov hfuel
      unfold closeIter
      by_cases h : newEdges es = []
      · rw [if_pos h]; exact h
      · rw [if_neg h]
        refine ih (closeStep es) (nodup_closeStep hnd) (edgesOver_closeStep hov) ?_
        have := length_closeStep_lt h
        omega

lemma closureRun_converged {es : List (String × String)} :
    newEdges (closureRun es) = [] := by
  refine closeIter_converged (V := edgeVerts es) _ es.dedup (List.nodup_dedup es) ?_ ?_
  · rintro ⟨a, b⟩ he
    rw [List.mem_dedup] at he
    constructor
    · rw [edgeVerts, List.mem_dedup, List.mem_append]
      exact Or.inl (List.mem_map.mpr ⟨(a, b), he, rfl⟩)
    · rw [edgeVerts, List.mem_dedup, List.mem_append]
      exact Or.inr (List.mem_map.mpr ⟨(a, b), he, rfl⟩)
  · omega

lemma closureRun_nodup {es : List (String × String)} : (closureRun es).Nodup :=
  nodup_closeIter (List.nodup_dedup es)

lemma subset_closureRun {es : List (String × String)} : es ⊆ closureRun es := by
  intro e he
  exact subset_closeIter ((List.mem_dedup).mpr he)

lemma closeIter_of_nil {n : Nat} {es : List (String × String)} (h : newEdges es = []) :
    closeIter n es = es := by
  cases n with
  | zero => rfl
  | succ n => simp [closeIter, h]

/-- Re-running a closure run on its own result returns it unchanged. -/
lemma closureRun_idem {es : List (String × String)} :
    closureRun (closureRun es) = closureRun es := by
  have hd : (closureRun es).dedup = closureRun es := List.dedup_eq_self.mpr closureRun_nodup
  conv_lhs => rw [closureRun]
  rw [hd]
  exact closeIter_of_nil closureRun_converged

/-- The closure result is transitive, hence equals its own transitive
closure. -/
lemma closureRun_transitive {es : List (String × String)} :
    Transitive (fun a b => (a, b) ∈ closureRun es) := by
  intro a b c h1 h2
  exact trans_of_newEdges_nil closureRun_converged h1 h2

/-! ## Inverse mirroring and functional enforcement -/

lemma invOf_symm {r v : String} (h : invOf r = some v) : invOf v = some r := by
  unfold invOf at h
  split at h <;>
    first
      | exact Option.noConfusion h
      | (have hv := Option.some.inj h; subst hv; rfl)

lemma invOf_ne_self {r v : String} (h : invOf r = some v) : r ≠ v := by
  unfold invOf at h
  split at h <;>
    first
      | exact Option.noConfusion h
      | (have hv := Option.some.inj h; subst hv; decide)

lemma invOf_not_functional {r v : String} (h : invOf r = some v) :
    functionalObjProps.contains r = false := by
  unfold invOf at h
  split at h <;>
    first
      | exact Option.noConfusion h
      | rfl

lemma contains_functional_eq {p : String} (h : functionalObjProps.contains p = true) :
    p = "parentStation" := by
  simpa [functionalObjProps] using h

lemma hasEdge_iff {kb : KB} {r s t : String} :
    kb.hasEdge r s t = true ↔ (r, s, t) ∈ kb.objE := by
  simp [KB.hasEdge]

/-- Every edge of a property with a declared inverse has its mirrored
edge, and vice versa. -/
def mirrored (kb : KB) : Prop :=
  ∀ r v s t, invOf r = some v → ((r, s, t) ∈ kb.objE ↔ (v, t, s) ∈ kb.objE)

lemma mirrored_empty : mirrored emptyKB := by
  intro r v s t _
  simp [emptyKB]

lemma mirrored_newInd {kb : KB} (h : mirrored kb) (c i : String) :
    mirrored (kb.newInd c i) := h

lemma mirrored_setIntAttr {kb : KB} (h : mirrored kb) (a i : String) (v : Int) :
    mirrored (kb.setIntAttr a i v) := h

lemma mirrored_setStrAttr {kb : KB} (h : mirrored kb) (a i v : String) :
    mirrored (kb.setStrAttr a i v) := h

lemma mirrored_addObj {kb : KB} (h : mirrored kb) (p s t : String) :
    mirrored (kb.addObj p s t) := by
  intro r v s' t' hrv
  have hvr : invOf v = some r := invOf_symm hrv
  have hrP : functionalObjProps.contains r = false := invOf_not_functional hrv
  have hvP : functionalObjProps.contains v = false := invOf_not_functional hvr
  unfold KB.addObj
  by_cases hf : functionalObjProps.contains p = true
  · rw [if_pos hf]
    have hp := contains_functional_eq hf
    subst hp
    have hrp : r ≠ "parentStation" := by
      intro he; rw [he] at hrP; simp [functionalObjProps] at hrP
    have hvp : v ≠ "parentStation" := by
      intro he; rw [he] at hvP; simp [functionalObjProps] at hvP
    simp only [List.mem_cons, List.mem_filter]
    constructor
    · rintro (he | ⟨hm, _⟩)
      · exact absurd (congrArg Prod.fst he) hrp
      · refine Or.inr ⟨(h r v s' t' hrv).mp hm, by simp [hvp]⟩
    · rintro (he | ⟨hm, _⟩)
      · exact absurd (congrArg Prod.fst he) hvp
      · refine Or.inr ⟨(h r v s' t' hrv).mpr hm, by simp [hrp]⟩
  · rw [if_neg hf]
    rcases hp2 : invOf p with _ | p2
    · have hrne : r ≠ p := by
        intro he; rw [he, hp2] at hrv; exact Option.noConfusion hrv
      have hvne : v ≠ p := by
        intro he; rw [he, hp2] at hvr; exact Option.noConfusion hvr
      simp only [List.mem_cons]
      constructor
      · rintro (he | hm)
        · exact absurd (congrArg Prod.fst he) hrne
        · exact Or.inr ((h r v s' t' hrv).mp hm)
      · rintro (he | hm)
        · exact absurd (congrArg Prod.fst he) hvne
        · exact Or.inr ((h r v s' t' hrv).mpr hm)
    · by_cases hpr : p = r
      · subst hpr
        have hv2 : v = p2 := by
          rw [hrv] at hp2; exact Option.some.inj hp2
        subst hv2
        have hneq : p ≠ v := invOf_ne_self hrv
        simp only [List.mem_cons]
        constructor
        · rintro (he | he | hm)
          · exact absurd (congrArg Prod.fst he) hneq
          · have h2 : s' = s := congrArg (fun x => x.2.1) he
            have h3 : t' = t := congrArg (fun x => x.2.2) he
            exact Or.inl (by rw [h2, h3])
          · exact Or.inr (Or.inr ((h p v s' t' hrv).mp hm))
        · rintro (he | he | hm)
          · have h2 : t' = t := congrArg (fun x => x.2.1) he
            have h3 : s' = s := congrArg (fun x => x.2.2) he
            exact Or.inr (Or.inl (by rw [h2, h3]))
          · exact absurd (congrArg Prod.fst he) (Ne.symm hneq)
          · exact Or.inr (Or.inr ((h p v s' t' hrv).mpr hm))
      · by_cases hpv : p = v
        · subst hpv
          have hr2 : r = p2 := by
            rw [hvr] at hp2; exact Option.some.inj hp2
          subst hr2
          have hneq : r ≠ p := invOf_ne_self hrv
          simp only [List.mem_cons]
          constructor
          · rintro (he | he | hm)
            · have h2 : s' = t := congrArg (fun x => x.2.1) he
              have h3 : t' = s := congrArg (fun x => x.2.2) he
              exact Or.inr (Or.inl (by rw [h3, h2]))
            · exact absurd (congrArg Prod.fst he) hneq
            · exact Or.inr (Or.inr ((h r p s' t' hrv).mp hm))
          · rintro (he | he | hm)
            · exact absurd (congrArg Prod.fst he) (Ne.symm hneq)
            · have h2 : t' = s := congrArg (fun x => x.2.1) he
              have h3 : s' = t := congrArg (fun x => x.2.2) he
              exact Or.inl (by rw [h3, h2])
            · exact Or.inr (Or.inr ((h r p s' t' hrv).mpr hm))
        · have hp2r : p2 ≠ r := by
            intro he
            rw [he] at hp2
            have h2 := invOf_symm hp2
            rw [hrv] at h2
            exact hpv (Option.some.inj h2).symm
          have hp2v : p2 ≠ v := by
            intro he
            rw [he] at hp2
            have h2 := invOf_symm hp2
            rw [hvr] at h2
            exact hpr (Option.some.inj h2).symm
          simp only [List.mem_cons]
          constructor
          · rintro (he | he | hm)
            · exact absurd (congrArg Prod.fst he) (Ne.symm hp2r)
            · exact absurd (congrArg Prod.fst he) (fun h0 => hpr h0.symm)
            · exact Or.inr (Or.inr ((h r v s' t' hrv).mp hm))
          · rintro (he | he | hm)
            · exact absurd (congrArg Prod.fst he) (Ne.symm hp2v)
            · exact absurd (congrArg Prod.fst he) (fun h0 => hpv h0.symm)
            · exact Or.inr (Or.inr ((h r v s' t' hrv).mpr hm))

/-- At most one recorded value for every functional data property and for
the functional object property `parentStation`. -/
def funcInv (kb : KB) : Prop :=
  ∀ a i, (kb.intVals a i).length ≤ 1 ∧ (kb.strVals a i).length ≤ 1 ∧
    (kb.objTargets "parentStation" i).length ≤ 1

lemma filter_keyUpd {β : Type} (l : List (String × String × β)) (a i : String) (v : β)
    (a' i' : String) :
    (((a, i, v) :: l.filter fun e => !(decide (e.1 = a) && decide (e.2.1 = i))).filter
        fun e => decide (e.1 = a') && decide (e.2.1 = i')) =
      if a' = a ∧ i' = i then [(a, i, v)]
      else l.filter fun e => decide (e.1 = a') && decide (e.2.1 = i') := by
  by_cases h : a' = a ∧ i' = i
  · obtain ⟨h1, h2⟩ := h
    subst h1; subst h2
    rw [if_pos ⟨rfl, rfl⟩]
    rw [List.filter_cons_of_pos (by simp)]
    rw [List.filter_filter]
    have : ∀ x ∈ l,
        ((decide (x.1 = a') && decide (x.2.1 = i')) &&
          !(decide (x.1 = a') && decide (x.2.1 = i'))) = false := by
      intro x _
      exact Bool.and_not_self _
    rw [List.filter_congr (by intro x hx; rw [this x hx]), List.filter_false]
  · rw [if_neg h]
    rw [List.filter_cons_of_neg (by
      simp only [Bool.and_eq_true, decide_eq_true_eq]
      rintro ⟨h1, h2⟩
      exact h ⟨h1.symm, h2.symm⟩)]
    rw [List.filter_filter]
    refine List.filter_congr ?_
    intro x _
    by_cases hs : (decide (x.1 = a') && decide (x.2.1 = i')) = true
    · rw [hs]
      simp only [Bool.true_and]
      simp only [Bool.and_eq_true, decide_eq_true_eq] at hs
      have : (decide (x.1 = a) && decide (x.2.1 = i)) = false := by
        by_cases hq : (decide (x.1 = a) && decide (x.2.1 = i)) = true
        · simp only [Bool.and_eq_true, decide_eq_true_eq] at hq
          exact absurd ⟨hs.1.symm.trans hq.1, hs.2.symm.trans hq.2⟩ h
        · exact Bool.eq_false_iff.mpr hq
      rw [this]
      rfl
    · rw [Bool.eq_false_iff.mpr hs]
      rfl

lemma intVals_setIntAttr (kb : KB) (a i : String) (v : Int) (a' i' : String) :
    (kb.setIntAttr a i v).intVals a' i' =
      if a' = a ∧ i' = i then [v] else kb.intVals a' i' := by
  unfold KB.setIntAttr KB.intVals
  dsimp only
  rw [filter_keyUpd]
  by_cases h : a' = a ∧ i' = i
  · rw [if_pos h, if_pos h]; rfl
  · rw [if_neg h, if_neg h]

lemma strVals_setStrAttr (kb : KB) (a i v a' i' : String) :
    (kb.setStrAttr a i v).strVals a' i' =
      if a' = a ∧ i' = i then [v] else kb.strVals a' i' := by
  unfold KB.setStrAttr KB.strVals
  dsimp only
  rw [filter_keyUpd]
  by_cases h : a' = a ∧ i' = i
  · rw [if_pos h, if_pos h]; rfl
  · rw [if_neg h, if_neg h]

lemma objTargets_addObj_fn {r : String} (kb : KB) (s t : String)
    (hf : functionalObjProps.contains r = true) (r' i' : String) :
    (kb.addObj r s t).objTargets r' i' =
      if r' = r ∧ i' = s then [t] else kb.objTargets r' i' := by
  unfold KB.addObj KB.objTargets
  rw [if_pos hf]
  dsimp only
  rw [filter_keyUpd]
  by_cases h : r' = r ∧ i' = s
  · rw [if_pos h, if_pos h]; rfl
  · rw [if_neg h, if_neg h]

lemma objTargets_addObj_nonfn {r : String} (kb : KB) (s t : String)
    (hf : functionalObjProps.contains r = false) {r' : String} (hne : r' ≠ r)
    (hne2 : ∀ r2, invOf r = some r2 → r' ≠ r2) (i' : String) :
    (kb.addObj r s t).objTargets r' i' = kb.objTargets r' i' := by
  unfold KB.addObj KB.objTargets
  rw [if_neg (by rw [hf]; exact Bool.false_ne_true)]
  rcases h2 : invOf r with _ | r2
  · dsimp only
    rw [List.filter_cons_of_neg (by
      simp only [Bool.and_eq_true, decide_eq_true_eq, not_and]
      intro he
      exact absurd he.symm hne)]
  · dsimp only
    rw [List.filter_cons_of_neg (by
      simp only [Bool.and_eq_true, decide_eq_true_eq, not_and]
      intro he
      exact absurd he.symm (hne2 r2 h2))]
    rw [List.filter_cons_of_neg (by
      simp only [Bool.and_eq_true, decide_eq_true_eq, not_and]
      intro he
      exact absurd he.symm hne)]

lemma funcInv_empty : funcInv emptyKB := by
  intro a i
  refine ⟨?_, ?_, ?_⟩ <;> simp [emptyKB, KB.intVals, KB.strVals, KB.objTargets]

lemma funcInv_newInd {kb : KB} (h : funcInv kb) (c i : String) :
    funcInv (kb.newInd c i) := h

lemma funcInv_setIntAttr {kb : KB} (h : funcInv kb) (a i : String) (v : Int) :
    funcInv (kb.setIntAttr a i v) := by
  intro a' i'
  obtain ⟨h1, h2, h3⟩ := h a' i'
  refine ⟨?_, h2, h3⟩
  rw [intVals_setIntAttr]
  by_cases hc : a' = a ∧ i' = i
  · rw [if_pos hc]; exact Nat.le_refl 1
  · rw [if_neg hc]; exact h1

lemma funcInv_setStrAttr {kb : KB} (h : funcInv kb) (a i v : String) :
    funcInv (kb.setStrAttr a i v) := by
  intro a' i'
  obtain ⟨h1, h2, h3⟩ := h a' i'
  refine ⟨h1, ?_, h3⟩
  rw [strVals_setStrAttr]
  by_cases hc : a' = a ∧ i' = i
  · rw [if_pos hc]; exact Nat.le_refl 1
  · rw [if_neg hc]; exact h2

lemma addObj_intA (kb : KB) (r s t : String) : (kb.addObj r s t).intA = kb.intA := by
  unfold KB.addObj
  split
  · rfl
  · split <;> rfl

lemma addObj_strA (kb : KB) (r s t : String) : (kb.addObj r s t).strA = kb.strA := by
  unfold KB.addObj
  split
  · rfl
  · split <;> rfl

lemma addObj_insts (kb : KB) (r s t : String) : (kb.addObj r s t).insts = kb.insts := by
  unfold KB.addObj
  split
  · rfl
  · split <;> rfl

lemma intVals_addObj (kb : KB) (r s t a i : String) :
    (kb.addObj r s t).intVals a i = kb.intVals a i := by
  unfold KB.intVals
  rw [addObj_intA]

lemma strVals_addObj (kb : KB) (r s t a i : String) :
    (kb.addObj r s t).strVals a i = kb.strVals a i := by
  unfold KB.strVals
  rw [addObj_strA]

lemma funcInv_addObj {kb : KB} (h : funcInv kb) (r s t : String) :
    funcInv (kb.addObj r s t) := by
  intro a' i'
  obtain ⟨h1, h2, h3⟩ := h a' i'
  refine ⟨by rw [intVals_addObj]; exact h1, by rw [strVals_addObj]; exact h2, ?_⟩
  by_cases hf : functionalObjProps.contains r = true
  · rw [objTargets_addObj_fn kb s t hf]
    by_cases hc : "parentStation" = r ∧ i' = s
    · rw [if_pos hc]; exact Nat.le_refl 1
    · rw [if_neg hc]; exact h3
  · have hf2 : functionalObjProps.contains r = false := Bool.eq_false_iff.mpr hf
    rw [objTargets_addObj_nonfn kb s t hf2 ?hne ?hne2]
    · exact h3
    case hne =>
      intro he
      rw [← he] at hf2
      simp [functionalObjProps] at hf2
    case hne2 =>
      intro r2 hr2 he
      have := invOf_not_functional (invOf_symm hr2)
      rw [← he] at this
      simp [functionalObjProps] at this

/-- The two store invariants that every mutation preserves. -/
def kbInv (kb : KB) : Prop := mirrored kb ∧ funcInv kb

lemma kbInv_empty : kbInv emptyKB := ⟨mirrored_empty, funcInv_empty⟩

lemma kbInv_newInd {kb : KB} (h : kbInv kb) (c i : String) : kbInv (kb.newInd c i) :=
  ⟨mirrored_newInd h.1 c i, funcInv_newInd h.2 c i⟩

lemma kbInv_addObj {kb : KB} (h : kbInv kb) (r s t : String) : kbInv (kb.addObj r s t) :=
  ⟨mirrored_addObj h.1 r s t, funcInv_addObj h.2 r s t⟩

lemma kbInv_setIntAttr {kb : KB} (h : kbInv kb) (a i : String) (v : Int) :
    kbInv (kb.setIntAttr a i v) :=
  ⟨mirrored_setIntAttr h.1 a i v, funcInv_setIntAttr h.2 a i v⟩

lemma kbInv_setStrAttr {kb : KB} (h : kbInv kb) (a i v : String) :
    kbInv (kb.setStrAttr a i v) :=
  ⟨mirrored_setStrAttr h.1 a i v, funcInv_setStrAttr h.2 a i v⟩

lemma kbInv_applyIf {b : Bool} {f : KB → KB} {kb : KB}
    (hf : ∀ k, kbInv k → kbInv (f k)) (h : kbInv kb) : kbInv (applyIf b f kb) := by
  unfold applyIf
  split
  · exact hf kb h
  · exact h

lemma kbInv_setIntOpt {a i : String} {o : Option Int} {kb : KB} (h : kbInv kb) :
    kbInv (setIntOpt a i o kb) := by
  unfold setIntOpt
  cases o with
  | none => exact h
  | some v => exact kbInv_setIntAttr h a i v

lemma kbInv_ingestLevelRow {st : IngestSt} {row : LevelRow} (h : kbInv st.kb) :
    kbInv (ingestLevelRow st row).kb := by
  dsimp only [ingestLevelRow]
  repeat' split
  all_goals
    repeat
      first
        | with_reducible apply kbInv_applyIf (fun k hk => kbInv_addObj hk _ _ _)
        | with_reducible apply kbInv_applyIf (fun k hk => kbInv_setStrAttr hk _ _ _)
        | with_reducible apply kbInv_applyIf (fun k hk => kbInv_newInd hk _ _)
        | with_reducible apply kbInv_setIntOpt
        | with_reducible apply kbInv_addObj
        | with_reducible apply kbInv_setIntAttr
        | with_reducible apply kbInv_setStrAttr
        | with_reducible apply kbInv_newInd
  all_goals exact h

lemma kbInv_ingestStopRow {st : IngestSt} {row : StopRow} (h : kbInv st.kb) :
    kbInv (ingestStopRow st row).kb := by
  dsimp only [ingestStopRow]
  repeat' split
  all_goals
    repeat
      first
        | with_reducible apply kbInv_applyIf (fun k hk => kbInv_addObj hk _ _ _)
        | with_reducible apply kbInv_applyIf (fun k hk => kbInv_setStrAttr hk _ _ _)
        | with_reducible apply kbInv_applyIf (fun k hk => kbInv_newInd hk _ _)
        | with_reducible apply kbInv_setIntOpt
        | with_reducible apply kbInv_addObj
        | with_reducible apply kbInv_setIntAttr
        | with_reducible apply kbInv_setStrAttr
        | with_reducible apply kbInv_newInd
  all_goals exact h

lemma kbInv_ingestRouteRow {st : IngestSt} {row : RouteRow} (h : kbInv st.kb) :
    kbInv (ingestRouteRow st row).kb := by
  dsimp only [ingestRouteRow]
  repeat' split
  all_goals
    repeat
      first
        | with_reducible apply kbInv_applyIf (fun k hk => kbInv_addObj hk _ _ _)
        | with_reducible apply kbInv_applyIf (fun k hk => kbInv_setStrAttr hk _ _ _)
        | with_reducible apply kbInv_applyIf (fun k hk => kbInv_newInd hk _ _)
        | with_reducible apply kbInv_setIntOpt
        | with_reducible apply kbInv_addObj
        | with_reducible apply kbInv_setIntAttr
        | with_reducible apply kbInv_setStrAttr
        | with_reducible apply kbInv_newInd
  all_goals exact h

lemma kbInv_ingestTripRow {st : IngestSt} {row : TripRow} (h : kbInv st.kb) :
    kbInv (ingestTripRow st row).kb := by
  dsimp only [ingestTripRow]
  repeat' split
  all_goals
    repeat
      first
        | with_reducible apply kbInv_applyIf (fun k hk => kbInv_addObj hk _ _ _)
        | with_reducible apply kbInv_applyIf (fun k hk => kbInv_setStrAttr hk _ _ _)
        | with_reducible apply kbInv_applyIf (fun k hk => kbInv_newInd hk _ _)
        | with_reducible apply kbInv_setIntOpt
        | with_reducible apply kbInv_addObj
        | with_reducible apply kbInv_setIntAttr
        | with_reducible apply kbInv_setStrAttr
        | with_reducible apply kbInv_newInd
  all_goals exact h

lemma kbInv_ingestTransferRow {st : IngestSt} {idx : Nat} {row : TransferRow}
    (h : kbInv st.kb) : kbInv (ingestTransferRow st idx row).kb := by
  dsimp only [ingestTransferRow]
  repeat' split
  all_goals
    repeat
      first
        | with_reducible apply kbInv_applyIf (fun k hk => kbInv_addObj hk _ _ _)
        | with_reducible apply kbInv_applyIf (fun k hk => kbInv_setStrAttr hk _ _ _)
        | with_reducible apply kbInv_applyIf (fun k hk => kbInv_newInd hk _ _)
        | with_reducible apply kbInv_setIntOpt
        | with_reducible apply kbInv_addObj
        | with_reducible apply kbInv_setIntAttr
        | with_reducible apply kbInv_setStrAttr
        | with_reducible apply kbInv_newInd
  all_goals exact h

lemma kbInv_ingestPathwayRow {st : IngestSt} {row : PathwayRow} (h : kbInv st.kb) :
    kbInv (ingestPathwayRow st row).kb := by
  dsimp only [ingestPathwayRow]
  repeat' split
  all_goals
    repeat
      first
        | with_reducible apply kbInv_applyIf (fun k hk => kbInv_addObj hk _ _ _)
        | with_reducible apply kbInv_applyIf (fun k hk => kbInv_setStrAttr hk _ _ _)
        | with_reducible apply kbInv_applyIf (fun k hk => kbInv_newInd hk _ _)
        | with_reducible apply kbInv_setIntOpt
        | with_reducible apply kbInv_addObj
        | with_reducible apply kbInv_setIntAttr
        | with_reducible apply kbInv_setStrAttr
        | with_reducible apply kbInv_newInd
  all_goals exact h

lemma kbInv_ingestFareRow {st : IngestSt} {row : FareRow} (h : kbInv st.kb) :
    kbInv (ingestFareRow st row).kb := by
  dsimp only [ingestFareRow]
  repeat' split
  all_goals
    repeat
      first
        | with_reducible apply kbInv_applyIf (fun k hk => kbInv_addObj hk _ _ _)
        | with_reducible apply kbInv_applyIf (fun k hk => kbInv_setStrAttr hk _ _ _)
        | with_reducible apply kbInv_applyIf (fun k hk => kbInv_newInd hk _ _)
        | with_reducible apply kbInv_setIntOpt
        | with_reducible apply kbInv_addObj
        | with_reducible apply kbInv_setIntAttr
        | with_reducible apply kbInv_setStrAttr
        | with_reducible apply kbInv_newInd
  all_goals exact h

lemma kbInv_foldl {α : Type} {f : IngestSt → α → IngestSt}
    (hf : ∀ st a, kbInv st.kb → kbInv (f st a).kb) :
    ∀ (l : List α) (st : IngestSt), kbInv st.kb → kbInv (l.foldl f st).kb := by
  intro l
  induction l with
  | nil => intro st h; exact h
  | cons x xs ih => intro st h; exact ih _ (hf st x h)

/-- Both store invariants hold after the entire ingestion pipeline. -/
lemma kbInv_ingestAll (levels : List LevelRow) (stops : List StopRow)
    (routes : List RouteRow) (trips : List TripRow)
    (transfers : List (Nat × TransferRow)) (pathways : List PathwayRow)
    (fares : List FareRow) :
    kbInv (ingestAll levels stops routes trips transfers pathways fares).kb := by
  unfold ingestAll ingestLevels ingestStops ingestRoutes ingestTrips ingestTransfers ingestPathways ingestFares
  apply kbInv_foldl (fun st a h => kbInv_ingestFareRow h)
  apply kbInv_foldl (fun st a h => kbInv_ingestPathwayRow h)
  apply kbInv_foldl (fun st a h => kbInv_ingestTransferRow h)
  apply kbInv_foldl (fun st a h => kbInv_ingestTripRow h)
  apply kbInv_foldl (fun st a h => kbInv_ingestRouteRow h)
  apply kbInv_foldl (fun st a h => kbInv_ingestStopRow h)
  apply kbInv_foldl (fun st a h => kbInv_ingestLevelRow h)
  exact kbInv_empty

/-! ## Demonstration inputs for the end-to-end scenarios -/

def demoStops : List StopRow :=
  [ ⟨some "s1", some "Alpha", none, none, none⟩,
    ⟨some "s2", some "Beta", none, none, none⟩,
    ⟨some "s3", some "Gamma", none, none, none⟩ ]

def demoRoutes : List RouteRow :=
  [ ⟨some "r1", some "M1", some "1", some "A"⟩,
    ⟨some "r2", some "B7", some "3", some "A"⟩ ]

def demoPaths : List PathwayRow :=
  [ ⟨some "p1", some "s1", some "s2", some "5", some "1"⟩ ]

def demoTrans : List (Nat × TransferRow) :=
  [ (0, ⟨some "s1", some "s2", some "120", some "r1", none, none, none⟩),
    (1, ⟨some "s2", some "s3", some "60", none, none, none, none⟩),
    (2, ⟨some "s3", some "s3", none, none, none, none, none⟩) ]

/-- The pipeline on the elevator scenario: three stops, one pathway with
`pathway_mode = 5` (elevator) linking s1 and s2. -/
def demoPathSt : IngestSt := ingestAll [] demoStops [] [] [] demoPaths []

/-- The pipeline on the reachability scenario: three stops, transfers
s1 to s2 (on route r1) and s2 to s3. -/
def demoTransSt : IngestSt := ingestAll [] demoStops demoRoutes [] demoTrans [] []

/-- Stops alone: each stop has no incoming `servesStop` edge. -/
def demoStopSt : IngestSt := ingestStops emptySt demoStops

lemma member_metroLine (kb : KB) (i : String) :
    kb.member "MetroLine" i =
      (kb.memBase "Route" i && decide (kb.getIntAttr "routeType" i = some 1)) := rfl

lemma member_metroOnlyStop (kb : KB) (i : String) :
    kb.member "MetroOnlyStop" i =
      (kb.memBase "Stop" i &&
        (roleTargets kb (.inv "servesStop") i).all (fun t => kb.memBase "MetroRoute" t)) := rfl

/-! ## Claim C1 -/

/-- C1: after classification an individual is a member of the composite
`MetroLine` if and only if it is a `Route` whose `routeType` attribute
equals 1 — an equivalence in both directions; concretely, on the demo
routes the type-1 route is a member and the type-3 route is not. -/
theorem metroLine_membership :
    (∀ (kb : KB) (i : String),
        kb.member "MetroLine" i = true ↔
          kb.memBase "Route" i = true ∧ kb.getIntAttr "routeType" i = some 1) ∧
    (ingestRoutes emptySt demoRoutes).kb.member "MetroLine" "route_r1" = true ∧
    (ingestRoutes emptySt demoRoutes).kb.member "MetroLine" "route_r2" = false := by
  refine ⟨?_, by decide, by decide⟩
  intro kb i
  rw [member_metroLine]
  simp

/-- C1 witness: the equivalence applied at the ingested demo routes. -/
theorem metroLine_membership_witness :
    (ingestRoutes emptySt demoRoutes).kb.memBase "Route" "route_r1" = true ∧
    (ingestRoutes emptySt demoRoutes).kb.getIntAttr "routeType" "route_r1" = some 1 :=
  (metroLine_membership.1 _ "route_r1").mp (by decide)

/-! ## Claim C2 -/

/-- C2 (failing scenario): the pipeline ingests the pathway row with
`pathway_mode = 5` (elevator) linking s1 and s2 — the mode attribute and
the `connectsStop` edges are recorded — yet no individual is ever made a
member of `ElevatorPathway` (the script declares the class but neither
asserts membership nor ships the SWRL rule its docstring advertises), and
`AccessibleStop` quantifies over the stop's OUTGOING `connectsStop` edges
while ingestion only creates pathway-to-stop edges; so s1 is not
classified as an `AccessibleStop`, contradicting the claim. -/
theorem accessibleStop_scenario_fails :
    demoPathSt.kb.getIntAttr "pathwayMode" "pathway_p1" = some 5 ∧
    demoPathSt.kb.hasEdge "connectsStop" "pathway_p1" "stop_s1" = true ∧
    demoPathSt.kb.hasEdge "connectsStop" "pathway_p1" "stop_s2" = true ∧
    demoPathSt.kb.member "ElevatorPathway" "pathway_p1" = false ∧
    demoPathSt.kb.member "AccessibleStop" "stop_s1" = false ∧
    demoPathSt.kb.member "AccessibleStop" "stop_s3" = false := by
  refine ⟨by decide, by decide, by decide, by decide, by decide, by decide⟩

/-! ## Claim C3 -/

/-- C3: an individual of the conjoined class with zero edges of the
quantified role vacuously satisfies a universal restriction
`C ⊓ ∀R.D` for any target class `D`, and in particular a `Stop` with no
incoming `servesStop` edge is classified as a `MetroOnlyStop`. -/
theorem universal_restriction_vacuous :
    (∀ (kb : KB) (c : String) (ro : Role) (d : String) (i : String),
        kb.memBase c i = true → roleTargets kb ro i = [] →
        evalForm kb (.allR c ro d) i = true) ∧
    (∀ (kb : KB) (i : String),
        kb.memBase "Stop" i = true → roleTargets kb (.inv "servesStop") i = [] →
        kb.member "MetroOnlyStop" i = true) := by
  constructor
  · intro kb c ro d i hc ht
    simp [evalForm, hc, ht]
  · intro kb i hc ht
    rw [member_metroOnlyStop, hc, ht]
    rfl

/-- C3 witness: stop s1, ingested without any transfer, has no incoming
`servesStop` edge and is a `MetroOnlyStop` member; the general statement
applied at stop s2 for an arbitrary target class. -/
theorem universal_restriction_vacuous_witness :
    evalForm demoStopSt.kb (.allR "Stop" (.inv "servesStop") "MetroRoute") "stop_s2" = true ∧
    demoStopSt.kb.member "MetroOnlyStop" "stop_s1" = true :=
  ⟨universal_restriction_vacuous.1 demoStopSt.kb "Stop" (.inv "servesStop") "MetroRoute"
      "stop_s2" (by decide) (by decide),
    universal_restriction_vacuous.2 demoStopSt.kb "stop_s1" (by decide) (by decide)⟩

/-! ## Claim C4 -/

/-- Modelled from the spec: the defining bound formulas of `FastTransfer`
and `SlowTransfer` (complementary bounds on `minTransferTime` over
`Transfer`, §4.2 and §8) are absent from the files under `src/` — there
the two classes are bare subclasses (src/main.py lines 163-167) — and
exist only in the repository's other script variants; per spec §9 the
threshold is a parameter, and an individual without the attribute is in
neither class ("excluded unless defined"). -/
def fastTransferMem (kb : KB) (threshold : Int) (i : String) : Bool :=
  kb.memBase "Transfer" i &&
    match kb.getIntAttr "minTransferTime" i with
    | some v => decide (v ≤ threshold)
    | none => false

/-- Modelled from the spec: the complementary bound, `minTransferTime`
strictly above the threshold. -/
def slowTransferMem (kb : KB) (threshold : Int) (i : String) : Bool :=
  kb.memBase "Transfer" i &&
    match kb.getIntAttr "minTransferTime" i with
    | some v => decide (threshold < v)
    | none => false

/-- C4: for any threshold, the two complementary-bound classes are
disjoint, their union is exactly the set of `Transfer` individuals with
`minTransferTime` defined, and an individual without the attribute is a
member of neither. -/
theorem fast_slow_partition :
    ∀ (kb : KB) (T : Int) (i : String),
      (fastTransferMem kb T i && slowTransferMem kb T i) = false ∧
      ((fastTransferMem kb T i || slowTransferMem kb T i) =
        (kb.memBase "Transfer" i && (kb.getIntAttr "minTransferTime" i).isSome)) ∧
      (kb.getIntAttr "minTransferTime" i = none →
        fastTransferMem kb T i = false ∧ slowTransferMem kb T i = false) := by
  intro kb T i
  unfold fastTransferMem slowTransferMem
  rcases h : kb.getIntAttr "minTransferTime" i with _ | v
  · cases kb.memBase "Transfer" i <;> simp
  · cases kb.memBase "Transfer" i
    · simp
    · simp
      omega

/-- C4 witness: on the ingested demo transfers at threshold 90 the
60-second transfer is fast and the 120-second one slow, and the
no-attribute conjunct of the partition applied to the transfer without
`min_transfer_time` puts it in neither class. -/
theorem fast_slow_partition_witness :
    (fastTransferMem demoTransSt.kb 90 "transfer_s1_s2_0" &&
      slowTransferMem demoTransSt.kb 90 "transfer_s1_s2_0") = false ∧
    slowTransferMem demoTransSt.kb 90 "transfer_s1_s2_0" = true ∧
    fastTransferMem demoTransSt.kb 90 "transfer_s2_s3_1" = true ∧
    (fastTransferMem demoTransSt.kb 90 "transfer_s3_s3_2" = false ∧
      slowTransferMem demoTransSt.kb 90 "transfer_s3_s3_2" = false) :=
  ⟨(fast_slow_partition demoTransSt.kb 90 "transfer_s1_s2_0").1, by decide, by decide,
    (fast_slow_partition demoTransSt.kb 90 "transfer_s3_s3_2").2.2 (by decide)⟩

/-! ## Claim C5 -/

/-- C5: a closure run leaves the stored edge set equal to its own
transitive closure (the result is transitive, so its transitive closure
is itself), contains every original edge, is unchanged by a second run
(idempotence), and on the demo (s1 to s2, s2 to s3 via `connectedTo`
edges from the ingested transfers) adds the edge s1 to s3. -/
theorem connectedTo_closure :
    (∀ es : List (String × String),
        Relation.TransGen (fun a b => (a, b) ∈ closureRun es) =
          fun a b => (a, b) ∈ closureRun es) ∧
    (∀ (es : List (String × String)) (e : String × String), e ∈ es → e ∈ closureRun es) ∧
    (∀ es : List (String × String), closureRun (closureRun es) = closureRun es) ∧
    ("stop_s1", "stop_s3") ∈ closureRun (connectedToEdges demoTransSt.kb) := by
  refine ⟨?_, ?_, ?_, by decide⟩
  · intro es
    exact Relation.transGen_eq_self closureRun_transitive
  · intro es e he
    exact subset_closureRun he
  · intro es
    exact closureRun_idem

/-- C5 witness: containment applied to a concrete stored edge. -/
theorem connectedTo_closure_witness :
    ("stop_s1", "stop_s2") ∈ closureRun (connectedToEdges demoTransSt.kb) :=
  connectedTo_closure.2.1 _ _ (by decide)

/-! ## Claim C6 -/

/-- C6: for each declared inverse pairing, an edge is stored in one
direction iff the mirrored edge is stored in the other: adding an edge of
either partner preserves the mirror invariant (so it holds at every
point), and it holds of the knowledge base produced by the whole
ingestion pipeline, for any input rows. -/
theorem inverse_mirroring :
    (∀ (kb : KB) (p s t : String), mirrored kb → mirrored (kb.addObj p s t)) ∧
    (∀ (levels : List LevelRow) (stops : List StopRow) (routes : List RouteRow)
        (trips : List TripRow) (transfers : List (Nat × TransferRow))
        (pathways : List PathwayRow) (fares : List FareRow) (r v s t : String),
        invOf r = some v →
        ((ingestAll levels stops routes trips transfers pathways fares).kb.hasEdge r s t =
          (ingestAll levels stops routes trips transfers pathways fares).kb.hasEdge v t s)) := by
  constructor
  · intro kb p s t h
    exact mirrored_addObj h p s t
  · intro levels stops routes trips transfers pathways fares r v s t hrv
    have hm := (kbInv_ingestAll levels stops routes trips transfers pathways fares).1
    have hiff := (hm r v s t hrv)
    rw [Bool.eq_iff_iff, hasEdge_iff, hasEdge_iff]
    exact hiff

/-- C6 witness: adding a `servesStop` edge to the empty store preserves
the mirror invariant, and the weak `servesStop` edge asserted while
ingesting the demo transfer on route r1 is mirrored as an `isServedBy`
edge. -/
theorem inverse_mirroring_witness :
    mirrored (emptyKB.addObj "servesStop" "route_r1" "stop_s1") ∧
    (demoTransSt.kb.hasEdge "servesStop" "route_r1" "stop_s1" =
      demoTransSt.kb.hasEdge "isServedBy" "stop_s1" "route_r1") ∧
    demoTransSt.kb.hasEdge "servesStop" "route_r1" "stop_s1" = true :=
  ⟨inverse_mirroring.1 emptyKB "servesStop" "route_r1" "stop_s1" mirrored_empty,
    inverse_mirroring.2 [] demoStops demoRoutes [] demoTrans [] []
      "servesStop" "isServedBy" "route_r1" "stop_s1" (by decide),
    by decide⟩

/-! ## Claim C7 -/

/-- C7: functional properties are single-valued with last-write-wins
replacement: re-assigning an integer, string, or `parentStation` value
replaces the previous one outright (the stored value list becomes exactly
the new singleton), and after the whole ingestion pipeline every
(attribute, individual) pair holds at most one value. -/
theorem functional_last_write_wins :
    (∀ (kb : KB) (a i : String) (v : Int),
        (kb.setIntAttr a i v).intVals a i = [v] ∧
        (kb.setIntAttr a i v).getIntAttr a i = some v) ∧
    (∀ (kb : KB) (a i v : String),
        (kb.setStrAttr a i v).strVals a i = [v] ∧
        (kb.setStrAttr a i v).getStrAttr a i = some v) ∧
    (∀ (kb : KB) (s t : String),
        (kb.addObj "parentStation" s t).objTargets "parentStation" s = [t]) ∧
    (∀ (levels : List LevelRow) (stops : List StopRow) (routes : List RouteRow)
        (trips : List TripRow) (transfers : List (Nat × TransferRow))
        (pathways : List PathwayRow) (fares : List FareRow) (a i : String),
        ((ingestAll levels stops routes trips transfers pathways fares).kb.intVals a i).length ≤ 1 ∧
        ((ingestAll levels stops routes trips transfers pathways fares).kb.strVals a i).length ≤ 1 ∧
        ((ingestAll levels stops routes trips transfers pathways fares).kb.objTargets
            "parentStation" i).length ≤ 1) := by
  refine ⟨?_, ?_, ?_, ?_⟩
  · intro kb a i v
    constructor
    · rw [intVals_setIntAttr, if_pos ⟨rfl, rfl⟩]
    · simp [KB.setIntAttr, KB.getIntAttr]
  · intro kb a i v
    constructor
    · rw [strVals_setStrAttr, if_pos ⟨rfl, rfl⟩]
    · simp [KB.setStrAttr, KB.getStrAttr]
  · intro kb s t
    rw [objTargets_addObj_fn kb s t (by decide), if_pos ⟨rfl, rfl⟩]
  · intro levels stops routes trips transfers pathways fares a i
    exact (kbInv_ingestAll levels stops routes trips transfers pathways fares).2 a i

/-! ## Claim C8 -/

def c8Stops : List StopRow := [⟨some "s2", none, none, none, none⟩]

def c8St : IngestSt := ingestStops emptySt c8Stops

/-- A transfer row whose from-stop id (s1) is not in the loaded stop set,
while its to-stop id (s2) is. -/
def c8Row : TransferRow := ⟨some "s1", some "s2", some "120", none, none, none, none⟩

/-- A well-formed transfer row (s2 to s2). -/
def c8Row2 : TransferRow := ⟨some "s2", some "s2", some "60", none, none, none, none⟩

/-- C8 counterexample: on a transfer row whose from-stop id is dangling,
ingestion drops the WHOLE row — the state is exactly unchanged, so no
Transfer individual and not even the non-dangling `toStop` edge is
produced — contradicting "drops only the specific dangling edge, not the
whole row", which would leave the row's individual with its to-stop
edge. -/
theorem dangling_transfer_drops_row :
    ingestTransfers c8St [(0, c8Row)] = c8St ∧
    (ingestTransfers c8St [(0, c8Row)]).kb.insts.all (fun p => !(p.1 == "Transfer")) = true := by
  exact ⟨by decide, by decide⟩

/-- C8 amended: a transfer row with a dangling from-stop id is dropped
whole — zero individuals and zero edges from that row, no error
(ingestion is a total function), and the output for the remaining rows is
exactly the output with the dangling row deleted from the input; by
contrast a dangling route id inside a KEPT row drops only that edge: the
row's Transfer individual and both stop edges are still produced. -/
theorem dangling_transfer_row_amended :
    (∀ (st : IngestSt) (rows : List (Nat × TransferRow)) (idx : Nat) (row : TransferRow),
        st.stopIds.contains (rawCell row.from_stop_id) = false →
        ingestTransfers st ((idx, row) :: rows) = ingestTransfers st rows) ∧
    ((ingestTransfers demoStopSt [(0, ⟨some "s1", some "s2", some "120", some "r9",
        none, none, none⟩)]).kb.memBase "Transfer" "transfer_s1_s2_0" = true ∧
      (ingestTransfers demoStopSt [(0, ⟨some "s1", some "s2", some "120", some "r9",
        none, none, none⟩)]).kb.hasEdge "toStop" "transfer_s1_s2_0" "stop_s2" = true ∧
      (ingestTransfers demoStopSt [(0, ⟨some "s1", some "s2", some "120", some "r9",
        none, none, none⟩)]).kb.hasEdge "fromRoute" "transfer_s1_s2_0" "route_r9" = false) := by
  constructor
  · intro st rows idx row hfs
    unfold ingestTransfers transfersFilter
    rw [List.filter_cons_of_neg (by
      simp only [Bool.and_eq_true, not_and]
      intro h1
      rw [hfs] at h1
      exact fun _ => Bool.noConfusion h1)]
  · exact ⟨by decide, by decide, by decide⟩

/-- C8 witness for the amended claim: deleting the dangling row from the
input leaves the other rows' output untouched. -/
theorem dangling_transfer_row_amended_witness :
    ingestTransfers c8St [(0, c8Row), (1, c8Row2)] = ingestTransfers c8St [(1, c8Row2)] :=
  dangling_transfer_row_amended.1 c8St [(1, c8Row2)] 0 c8Row (by decide)

/-! ## Claim C9 -/

/-- `inverse_of` coherence in the sense of spec §4.1: the declared
inverse's domain and range are exactly the swapped domain and range of
the declaring relation. -/
def swappedOK (d : RelDecl) : Bool :=
  match d.inv with
  | none => true
  | some n =>
      match schemaRels.find? (fun r => decide (r.name = n)) with
      | some r2 => decide (r2.dom = d.rng) && decide (r2.rng = d.dom)
      | none => false

/-- C9 counterexample: the schema as declared already violates the claim:
`isServedBy` (domain [Stop], range [Route]) declares inverse
`servesStop`, whose declared domain is empty rather than [Route]; and the
incoherent declaration is present in the registered schema, so no
declaration-time rejection happened. -/
theorem inverse_schema_not_swapped :
    schemaRels.all swappedOK = false ∧
    (schemaRels.find? (fun r => decide (r.name = "isServedBy"))).isSome = true := by
  exact ⟨by decide, by decide⟩

/-- C9 amended: of the three declared inverse pairs, hasTrip /
belongsToRoute and providesFare / providedByAgency have exactly swapped
domain and range, while servesStop / isServedBy does not (servesStop
declares no domain); no declaration-time validation rejects the
mismatched pair — it is accepted into the schema as-is. -/
theorem inverse_schema_amended :
    (schemaRels.filter (fun r => r.inv.isSome)).map (fun r => (r.name, swappedOK r)) =
      [("isServedBy", false), ("belongsToRoute", true), ("providedByAgency", true)] := by
  decide

/-! ## Claim C10 -/

def c10Routes : List RouteRow := [⟨some "r9", none, some "3.7", none⟩]

/-- C10: a string rejected by `int()` but parsed by `float()` with a
fractional part is coerced by `_safe_int` to the value truncated toward
zero rather than the default; concretely "3.7" gives 3 and "1.5" gives 1,
and a route row with `route_type` "3.7" ends up with `routeType = 3` set
instead of unset. -/
theorem safeInt_truncates_fractional :
    (∀ (s : String) (d : Option Int) (q : Int × Nat),
        s ≠ "" → parseIntStr s = none → parseFloatStr s = some q →
        pySafeInt s d = some (truncTowardZero q)) ∧
    pySafeInt "3.7" none = some 3 ∧
    pySafeInt "1.5" none = some 1 ∧
    pySafeInt "-3.7" none = some (-3) ∧
    (ingestRoutes emptySt c10Routes).kb.getIntAttr "routeType" "route_r9" = some 3 := by
  refine ⟨?_, by decide, by decide, by decide, by decide⟩
  intro s d q hs h1 h2
  unfold pySafeInt
  rw [if_neg hs, h1, h2]

/-- C10 witness: the general statement applied at "3.7". -/
theorem safeInt_truncates_fractional_witness :
    pySafeInt "3.7" (some 99) = some (truncTowardZero (37, 10)) :=
  safeInt_truncates_fractional.1 "3.7" (some 99) (37, 10)
    (by decide) (by decide) (by decide)

end Transport
